import Mathlib

/-!
Verification development for the lox-rust-2 bytecode compiler and VM.

The definitions below are a shallow embedding, function by function, of the
Rust sources:
  * `src/token.rs`   : token kinds and source spans;
  * `src/lexer.rs`   : keyword recognition (`Lexer::check_keyword`,
    `Lexer::identifier`) and numeric-literal scanning (`Lexer::number`);
  * `src/parser.rs`  : the single-pass Pratt compiler (the rule tables,
    `Parser::parse_precedence`, the statement and declaration compilers,
    scope handling, `resolve_local`, `declare_variable`, jump emission);
  * `src/value.rs`   : the tagged `Value` with `is_falsy` and `eq`;
  * `src/vm.rs`      : `Chunk`, opcode numbering, `VM::get_global`,
    `VM::call`.

Modelling conventions:
  * Rust `usize` is `Nat`; `usize::MAX` is the explicit constant `USIZE_MAX`
    (no wrap-around arithmetic is exercised by any embedded code path).
  * Rust `Vec` push/pop at the back is modelled by a Lean `List` whose HEAD
    is the MOST RECENT element (so `.iter().rev()` is plain iteration,
    `last()` is `head`), noted at each use.
  * `f64` appears only as the target of `str::parse::<f64>` on decimal
    literal text; it is embedded as `Rat` through `decToRat`, which agrees
    with the Rust parse on every literal used in a theorem (small decimals
    that f64 represents exactly).
  * The `HashMap` of globals is an association list; sources are ASCII in
    all inputs used, so byte indices and character indices coincide.
  * All recursion mirrors Rust loops via an explicit fuel parameter;
    running out of fuel marks the parse as failed (`hadError`), so a
    theorem proving `hadError = false` also certifies the fuel sufficed.
-/

namespace Lox

/-- `usize::MAX`, the sentinel used by `resolve_local` / `Local::depth`. -/
def USIZE_MAX : Nat := 2 ^ 64 - 1

/-! ## Tokens (src/token.rs) -/

/-- `TokenType` from src/token.rs (constructors carry a `t` prefix to avoid
Lean keywords). -/
inductive TokenType where
  | tError | tEof | tComment
  | tSemi | tLeftParen | tRightParen | tLeftBrace | tRightBrace
  | tComma | tDot | tPlus | tMinus | tSlash | tStar
  | tBang | tBangEqual | tEqual | tEqualEqual
  | tGreater | tGreaterEqual | tLess | tLessEqual
  | tIdentifier | tString | tNumber
  | tAnd | tClass | tElse | tFalse | tFor | tFun | tIf | tNil
  | tOr | tPrint | tReturn | tSuper | tThis | tTrue | tVar | tWhile
deriving DecidableEq, BEq

/-- `Span` from src/token.rs; the Rust field `end` is named `stop`. -/
structure Span where
  start : Nat
  stop : Nat
deriving DecidableEq

/-- `Token` from src/token.rs. -/
structure Token where
  tokenType : TokenType
  line : Nat
  col : Nat
  literal : Span
deriving DecidableEq

/-! ## Opcodes (src/vm.rs) -/

/-- `OpCode` from src/vm.rs. -/
inductive OpCode where
  | opReturn | opConstant | opNegate | opNot
  | opAdd | opSubtract | opMultiply | opDivide
  | opNil | opTrue | opFalse
  | opEqual | opGreater | opLess
  | opPrint | opPop
  | opDefineGlobal | opGetGlobal | opSetGlobal
  | opGetLocal | opSetLocal
  | opJumpIfFalse | opJump | opLoop | opCall
  | opUnknown
deriving DecidableEq

/-- The `#[repr(usize)]` discriminants of `OpCode` (the values stored in
`Chunk::instructions`). -/
def OpCode.toNat : OpCode → Nat
  | .opReturn => 0
  | .opConstant => 1
  | .opNegate => 2
  | .opNot => 3
  | .opAdd => 4
  | .opSubtract => 5
  | .opMultiply => 6
  | .opDivide => 7
  | .opNil => 8
  | .opTrue => 9
  | .opFalse => 10
  | .opEqual => 11
  | .opGreater => 12
  | .opLess => 13
  | .opPrint => 14
  | .opPop => 15
  | .opDefineGlobal => 16
  | .opGetGlobal => 17
  | .opSetGlobal => 18
  | .opGetLocal => 19
  | .opSetLocal => 20
  | .opJumpIfFalse => 21
  | .opJump => 22
  | .opLoop => 23
  | .opCall => 24
  | .opUnknown => 25

/-! ## Values, functions and chunks (src/value.rs, src/function.rs, src/vm.rs)

`Value::Function` owns a `Function`, which owns a `Chunk`, whose constant
pool holds `Value`s again, hence the mutual inductive. -/

mutual
/-- `Value` from src/value.rs.  `Number(f64)` is embedded as `Rat` (see the
file header); `NativeFn` keeps only its name (its function pointer is
never inspected by `eq`/`is_falsy`). -/
inductive LoxValue where
  | vBool (b : Bool)
  | vNum (x : Rat)
  | vNil
  | vStr (s : String)
  | vFun (f : FunctionV)
  | vNative (name : String)

/-- `Function` from src/function.rs as used by src/parser.rs:
`{ arity, chunk, name }`. -/
inductive FunctionV where
  | mk (arity : Nat) (chunk : Chunk) (name : Option String)

/-- `Chunk` from src/vm.rs: parallel `instructions` and `loc`, plus the
constant pool. -/
inductive Chunk where
  | mk (instructions : List Nat) (constants : List LoxValue)
      (locs : List (Nat × Nat))
end

def Chunk.instrs : Chunk → List Nat
  | .mk i _ _ => i

def Chunk.consts : Chunk → List LoxValue
  | .mk _ c _ => c

def Chunk.locs : Chunk → List (Nat × Nat)
  | .mk _ _ l => l

/-- `Chunk::write`: push one machine word and its source location. -/
def Chunk.write (c : Chunk) (op line col : Nat) : Chunk :=
  .mk (c.instrs ++ [op]) c.consts (c.locs ++ [(line, col)])

/-- `Chunk::add_constant`: push a constant, return its index. -/
def Chunk.addConstant (c : Chunk) (v : LoxValue) : Chunk × Nat :=
  (.mk c.instrs (c.consts ++ [v]) c.locs, c.consts.length)

/-- `Chunk::len` (length of `instructions`). -/
def Chunk.len (c : Chunk) : Nat := c.instrs.length

def emptyChunk : Chunk := .mk [] [] []

def FunctionV.arity : FunctionV → Nat
  | .mk a _ _ => a

def FunctionV.chunk : FunctionV → Chunk
  | .mk _ c _ => c

def FunctionV.fname : FunctionV → Option String
  | .mk _ _ n => n

def FunctionV.withChunk : FunctionV → Chunk → FunctionV
  | .mk a _ n, c => .mk a c n

def FunctionV.withArity : FunctionV → Nat → FunctionV
  | .mk _ c n, a => .mk a c n

/-- `Value::is_falsy` from src/value.rs. -/
def LoxValue.isFalsy : LoxValue → Bool
  | .vBool b => !b
  | .vNum _ => false
  | .vNil => true
  | .vStr _ => false
  | .vFun _ => false
  | .vNative _ => false

/-- `Value::eq` from src/value.rs: same tag compares the payload for the
four data tags, every other combination (including Function/Function and
NativeFn/NativeFn) is the catch-all `false`. -/
def LoxValue.eq : LoxValue → LoxValue → Bool
  | .vBool a, .vBool b => a == b
  | .vNum a, .vNum b => a == b
  | .vNil, .vNil => true
  | .vStr a, .vStr b => a == b
  | _, _ => false

/-- `FunctionType` from src/function.rs. -/
inductive FunctionType where
  | function
  | script
deriving DecidableEq

/-! ## String helpers

Rust slices strings by byte offsets; every source string appearing in a
theorem below is ASCII, so character offsets coincide with byte offsets. -/

/-- `&source[a..b]` for an ASCII `source`. -/
def strSlice (src : String) (a b : Nat) : String :=
  String.mk ((src.toList.drop a).take (b - a))

/-- Brute-force substring test (used only to state that one message does
not contain another). -/
def strHasSub (hay needle : String) : Bool :=
  (List.range (hay.length + 1)).any fun i => needle.toList.isPrefixOf (hay.toList.drop i)

/-- Decimal digits to the number they denote. -/
def digitsVal (l : List Char) : Nat :=
  l.foldl (fun acc c => acc * 10 + (c.toNat - 48)) 0

/-- Split a character list at the first dot. -/
def splitDot : List Char → List Char × Option (List Char)
  | [] => ([], none)
  | c :: rest =>
    if c = '.' then ([], some rest)
    else
      let (i, f) := splitDot rest
      (c :: i, f)

/-- Embedding of `str::parse::<f64>` on the decimal literal text the lexer
hands to `Parser::number`.  Exact (agrees with the f64 parse) on every
literal used below. -/
def decToRat (s : String) : Rat :=
  match splitDot s.toList with
  | (intPart, none) => (digitsVal intPart : Rat)
  | (intPart, some fracPart) =>
      (digitsVal intPart : Rat) + (digitsVal fracPart : Rat) / ((10 : Rat) ^ fracPart.length)

/-! ## Lexer fragments (src/lexer.rs)

Only the recognizers the claims cite are embedded: `check_keyword`,
`identifier` and `number`.  In `identifier` the character iterator and the
`current` counter stay synchronized on every path (a successful
`check_keyword` advances both by `end - start`), so one position suffices;
in `number` they diverge (the `'.'` branch advances the iterator but not
`current`), so both are threaded. -/

/-- `Lexer::check_keyword(start, end, snippet)`: bounds test, then compare
the byte slice `raw_source[start..end]` with `snippet`. -/
def checkKeyword (src : String) (start stop : Nat) (snippet : String) : Bool :=
  stop ≤ src.length && strSlice src start stop == snippet

def isDigitCh (c : Char) : Bool := '0' ≤ c && c ≤ '9'

def isAlphaUnderscoreCh (c : Char) : Bool :=
  ('a' ≤ c && c ≤ 'z') || ('A' ≤ c && c ≤ 'Z') || c = '_'

def charAt? (src : String) (i : Nat) : Option Char := src.toList.get? i

/-- The trailing alphanumeric scan of `Lexer::identifier` (the loop after
the keyword dispatch); returns the final `current`. -/
def identAlnumLoop (src : String) : Nat → Nat → Nat
  | 0, pos => pos
  | fuel + 1, pos =>
    match charAt? src pos with
    | none => pos
    | some c =>
      if isDigitCh c || isAlphaUnderscoreCh c then identAlnumLoop src fuel (pos + 1)
      else pos

/-- `Lexer::identifier(c)` specialized to computing the emitted token type
and final `current`.  On entry the first character `c` (at index `start`)
has been consumed, so `current = start + 1`; `cur0` is that value. -/
def identifierScan (src : String) (start cur0 : Nat) : TokenType × Nat :=
  let c := (charAt? src start).getD ' '
  let fallThrough : TokenType × Nat :=
    (.tIdentifier, identAlnumLoop src (src.length + 1) cur0)
  match c with
  | 'a' => if checkKeyword src (start + 1) (start + 3) "and" then (.tAnd, cur0 + 2) else fallThrough
  | 'c' => if checkKeyword src (start + 1) (start + 5) "lass" then (.tClass, cur0 + 4) else fallThrough
  | 'e' => if checkKeyword src (start + 1) (start + 4) "lse" then (.tElse, cur0 + 3) else fallThrough
  | 'i' => if checkKeyword src (start + 1) (start + 2) "f" then (.tIf, cur0 + 1) else fallThrough
  | 'n' => if checkKeyword src (start + 1) (start + 3) "il" then (.tNil, cur0 + 2) else fallThrough
  | 'o' => if checkKeyword src (start + 1) (start + 2) "r" then (.tOr, cur0 + 1) else fallThrough
  | 'p' => if checkKeyword src (start + 1) (start + 5) "rint" then (.tPrint, cur0 + 4) else fallThrough
  | 'r' => if checkKeyword src (start + 1) (start + 6) "eturn" then (.tReturn, cur0 + 5) else fallThrough
  | 's' => if checkKeyword src (start + 1) (start + 5) "uper" then (.tSuper, cur0 + 4) else fallThrough
  | 'v' => if checkKeyword src (start + 1) (start + 3) "ar" then (.tVar, cur0 + 2) else fallThrough
  | 'w' => if checkKeyword src (start + 1) (start + 5) "hile" then (.tWhile, cur0 + 4) else fallThrough
  | 'f' =>
    match charAt? src (start + 1) with
    | none => (.tIdentifier, cur0)
    | some nc =>
      if nc = 'a' then
        if checkKeyword src (start + 2) (start + 5) "lse" then (.tFalse, cur0 + 3 + 1) else fallThrough
      else if nc = 'o' then
        if checkKeyword src (start + 2) (start + 3) "r" then (.tFor, cur0 + 1 + 1) else fallThrough
      else if nc = 'u' then
        if checkKeyword src (start + 2) (start + 3) "n" then (.tFun, cur0 + 1 + 1) else fallThrough
      else fallThrough
  | 't' =>
    match charAt? src (start + 1) with
    | none => (.tIdentifier, cur0)
    | some nc =>
      if nc = 'h' then
        if checkKeyword src (start + 2) (start + 4) "is" then (.tThis, cur0 + 2 + 1) else fallThrough
      else if nc = 'r' then
        if checkKeyword src (start + 2) (start + 4) "ue" then (.tTrue, cur0 + 2 + 1) else fallThrough
      else fallThrough
  | _ => fallThrough

/-- `Lexer::number`: the scanning loop after the first digit was consumed.
`pos` is the character iterator's index, `cur` the `current` counter (the
span's end); the Rust `'.'` branch consumes from the iterator but does not
touch `current`.  `none` models the lex-error returns. -/
def numberScanGo (src : String) (start : Nat) : Nat → Nat → Nat → Bool → Option Span
  | 0, _, _, _ => none
  | fuel + 1, pos, cur, hasDot =>
    match charAt? src pos with
    | none => some ⟨start, cur⟩
    | some c =>
      if c = '.' then
        if hasDot then none
        else numberScanGo src start fuel (pos + 1) cur true
      else if isDigitCh c then
        numberScanGo src start fuel (pos + 1) (cur + 1) hasDot
      else if isAlphaUnderscoreCh c then none
      else some ⟨start, cur⟩

/-- `Lexer::number` for a literal starting at byte `start`: on entry one
digit has been consumed, so iterator and `current` both sit at
`start + 1`. -/
def numberScan (src : String) (start : Nat) : Option Span :=
  numberScanGo src start (src.length + 1) (start + 1) (start + 1) false

/-! ## Parser data (src/parser.rs) -/

/-- `Precedence` from src/parser.rs (`#[repr(u8)]`, derived `PartialOrd`
compares discriminants). -/
inductive Precedence where
  | none | assignment | orP | andP | equality | comparison
  | term | factor | unary | call | primary
deriving DecidableEq

/-- The `u8` discriminant of a `Precedence`. -/
def Precedence.toNat : Precedence → Nat
  | .none => 0
  | .assignment => 1
  | .orP => 2
  | .andP => 3
  | .equality => 4
  | .comparison => 5
  | .term => 6
  | .factor => 7
  | .unary => 8
  | .call => 9
  | .primary => 10

/-- `Precedence::from_u8` (out-of-range falls back to `None`). -/
def Precedence.fromNat : Nat → Precedence
  | 0 => .none
  | 1 => .assignment
  | 2 => .orP
  | 3 => .andP
  | 4 => .equality
  | 5 => .comparison
  | 6 => .term
  | 7 => .factor
  | 8 => .unary
  | 9 => .call
  | 10 => .primary
  | _ => .none

/-- `ParseFn` from src/parser.rs. -/
inductive ParseFn where
  | pfNone | pfNumber | pfGroup | pfUnary | pfBinary | pfLiteral
  | pfString | pfVariable | pfAnd | pfOr | pfCall
deriving DecidableEq

/-- `get_prefix_rule` from src/parser.rs; every token type not listed here
maps to `ParseFn::None` in the source table. -/
def prefixRuleOf : TokenType → ParseFn
  | .tLeftParen => .pfGroup
  | .tMinus => .pfUnary
  | .tBang => .pfUnary
  | .tIdentifier => .pfVariable
  | .tString => .pfString
  | .tNumber => .pfNumber
  | .tFalse => .pfLiteral
  | .tNil => .pfLiteral
  | .tTrue => .pfLiteral
  | _ => .pfNone

/-- `get_infix_rule` from src/parser.rs; unlisted token types map to
`ParseFn::None`. -/
def infixRuleOf : TokenType → ParseFn
  | .tLeftParen => .pfCall
  | .tMinus => .pfBinary
  | .tPlus => .pfBinary
  | .tStar => .pfBinary
  | .tSlash => .pfBinary
  | .tEqualEqual => .pfBinary
  | .tBangEqual => .pfBinary
  | .tGreater => .pfBinary
  | .tGreaterEqual => .pfBinary
  | .tLess => .pfBinary
  | .tLessEqual => .pfBinary
  | .tAnd => .pfAnd
  | .tOr => .pfOr
  | _ => .pfNone

/-- `get_precedence_rule` from src/parser.rs; unlisted token types map to
`Precedence::None`. -/
def precedenceRuleOf : TokenType → Precedence
  | .tLeftParen => .call
  | .tMinus => .term
  | .tPlus => .term
  | .tStar => .factor
  | .tSlash => .factor
  | .tEqualEqual => .equality
  | .tBangEqual => .equality
  | .tGreater => .comparison
  | .tGreaterEqual => .comparison
  | .tLess => .comparison
  | .tLessEqual => .comparison
  | .tAnd => .andP
  | .tOr => .orP
  | _ => .none

/-- `Local` from src/parser.rs: a declared name (as a span into the
source) and its scope depth (`USIZE_MAX` until `mark_initialized`). -/
structure PLocal where
  name : Span
  depth : Nat
deriving DecidableEq

/-- `CompileFrame` from src/parser.rs.  `locals` lists the most recent
local FIRST (the Rust `Vec` keeps it last). -/
structure CompileFrame where
  function : FunctionV
  functionType : FunctionType
  slots : List LoxValue
  locals : List PLocal
  scopeDepth : Nat

/-- The mutable fields of `Parser` (src/parser.rs).  `frames` lists the
innermost compile frame FIRST (the Rust `Vec` keeps it last); `errors`
collects the stderr lines of `error_at_current`; `panic` mirrors the
source field, which no code path ever sets. -/
structure ParserS where
  source : String
  tokens : List Token
  previous : Token
  current : Token
  hadError : Bool
  panic : Bool
  errors : List String
  frames : List CompileFrame

def dummyToken : Token := ⟨.tError, 0, 0, ⟨0, 0⟩⟩

def dummyFrame : CompileFrame :=
  ⟨.mk 0 emptyChunk none, .script, [], [], 0⟩

/-- `Parser::current_frame` (`frames.last().unwrap()`). -/
def currentFrame (s : ParserS) : CompileFrame := s.frames.headD dummyFrame

/-- `Parser::current_frame_mut` followed by a mutation. -/
def modifyFrame (s : ParserS) (f : CompileFrame → CompileFrame) : ParserS :=
  match s.frames with
  | [] => s
  | fr :: rest => { s with frames := f fr :: rest }

/-- The token-fetch loop of `Parser::advance`: skip `Comment` tokens, stop
at the first real token (or leave `current` untouched at end of input).
Lexer errors cannot occur in the token lists used below, so the `Err`
branch (report and continue) has no counterpart. -/
def advanceLoop : List Token → ParserS → ParserS
  | [], s => { s with tokens := [] }
  | t :: rest, s =>
    if t.tokenType = .tComment then advanceLoop rest { s with tokens := rest }
    else { s with tokens := rest, current := t }

/-- `Parser::advance`. -/
def pAdvance (s : ParserS) : ParserS :=
  advanceLoop s.tokens { s with previous := s.current }

/-- `Parser::error_at_current`: latch `had_error` and record the stderr
line. -/
def errorAtCurrent (s : ParserS) (message : String) : ParserS :=
  let line :=
    "[" ++ toString s.current.line ++ ":" ++ toString s.current.col ++ "] Error"
      ++ (if s.current.tokenType = .tEof then " at end" else "") ++ ": " ++ message
  { s with hadError := true, errors := s.errors ++ [line] }

/-- `Parser::check_type`. -/
def checkType (s : ParserS) (tt : TokenType) : Bool := s.current.tokenType == tt

/-- `Parser::match_token`. -/
def matchToken (s : ParserS) (tt : TokenType) : Bool × ParserS :=
  if checkType s tt then (true, pAdvance s) else (false, s)

/-- `Parser::consume`. -/
def consume (s : ParserS) (tt : TokenType) (msg : String) : ParserS :=
  if s.current.tokenType = tt then pAdvance s else errorAtCurrent s msg

/-- `Parser::span_to_str`. -/
def spanToStr (s : ParserS) (sp : Span) : String := strSlice s.source sp.start sp.stop

/-- `Parser::emit_op_usize` (and the body of `emit_op` after `as usize`):
write one machine word into the current frame's chunk at `previous`'s
location. -/
def emitOpNat (s : ParserS) (op : Nat) : ParserS :=
  modifyFrame s fun fr =>
    let ch := fr.function.chunk.write op s.previous.line s.previous.col
    { fr with function := fr.function.withChunk ch }

/-- `Parser::emit_op`. -/
def emitOp (s : ParserS) (op : OpCode) : ParserS := emitOpNat s op.toNat

/-- `Parser::emit_ops`. -/
def emitOps (s : ParserS) (a b : OpCode) : ParserS := emitOp (emitOp s a) b

/-- `Parser::emit_ops_usize`. -/
def emitOpsUsize (s : ParserS) (a : OpCode) (n : Nat) : ParserS := emitOpNat (emitOp s a) n

/-- `Parser::emit_constant`. -/
def emitConstant (s : ParserS) (v : LoxValue) : ParserS :=
  modifyFrame s fun fr =>
    let (ch, pos) := fr.function.chunk.addConstant v
    let ch := ch.write OpCode.opConstant.toNat s.previous.line s.previous.col
    let ch := ch.write pos s.previous.line s.previous.col
    { fr with function := fr.function.withChunk ch }

/-- `Parser::emit_jump`: emit the op and a `usize::MAX` placeholder,
return the placeholder's index. -/
def emitJump (s : ParserS) (op : OpCode) : Nat × ParserS :=
  let s := emitOp s op
  let s := emitOpNat s USIZE_MAX
  ((currentFrame s).function.chunk.len - 1, s)

/-- `Parser::patch_jump`: overwrite the placeholder at `offset` with
`chunk.len - offset - 1`. -/
def patchJump (s : ParserS) (offset : Nat) : ParserS :=
  modifyFrame s fun fr =>
    let ch := fr.function.chunk
    let jump := ch.len - offset - 1
    let patched : Chunk := .mk (ch.instrs.set offset jump) ch.consts ch.locs
    { fr with function := fr.function.withChunk patched }

/-- `Parser::emit_loop`: `LOOP` followed by `chunk.len - loop_start`
(computed after the `LOOP` byte was written). -/
def emitLoop (s : ParserS) (loopStart : Nat) : ParserS :=
  let s := emitOp s .opLoop
  let offset := (currentFrame s).function.chunk.len - loopStart
  emitOpNat s offset

/-- `Parser::begin_scope`. -/
def beginScope (s : ParserS) : ParserS :=
  modifyFrame s fun fr => { fr with scopeDepth := fr.scopeDepth + 1 }

/-- The pop-loop of `Parser::end_scope` (fuel = number of locals
suffices). -/
def endScopeLoop : Nat → ParserS → ParserS
  | 0, s => s
  | n + 1, s =>
    let f := currentFrame s
    match f.locals with
    | [] => s
    | l :: rest =>
      if l.depth > f.scopeDepth then
        endScopeLoop n (modifyFrame (emitOp s .opPop) fun fr => { fr with locals := rest })
      else s

/-- `Parser::end_scope`. -/
def endScope (s : ParserS) : ParserS :=
  let s := modifyFrame s fun fr => { fr with scopeDepth := fr.scopeDepth - 1 }
  endScopeLoop (currentFrame s).locals.length s

/-- `Parser::identifier_equal`: length shortcut, then source-slice
comparison. -/
def identifierEqual (s : ParserS) (a b : Span) : Bool :=
  if a.stop - a.start ≠ b.stop - b.start then false
  else strSlice s.source a.start a.stop == strSlice s.source b.start b.stop

/-- The `find_map` of `Parser::resolve_local` over
`locals.iter().rev().enumerate()` (our `locals` is already
most-recent-first): the first name match with depth 0 sets the error flag
and the search CONTINUES; any other name match returns its reversed
index. -/
def resolveLocalGo (s : ParserS) (name : Span) :
    List PLocal → Nat → Bool → Bool × Nat
  | [], _, err => (err, USIZE_MAX)
  | l :: rest, i, err =>
    if identifierEqual s name l.name then
      if l.depth = 0 then resolveLocalGo s name rest (i + 1) true
      else (err, i)
    else resolveLocalGo s name rest (i + 1) err

/-- `Parser::resolve_local`: returns the state (with the
"own initializer" error reported when the flag was set) and the slot
(`USIZE_MAX` when unresolved). -/
def resolveLocal (s : ParserS) (name : Span) : ParserS × Nat :=
  let (err, idx) := resolveLocalGo s name (currentFrame s).locals 0 false
  (if err then errorAtCurrent s "Can't read local variable in its own initializer."
   else s, idx)

/-- `Parser::add_local`: push a `Local` with sentinel depth. -/
def addLocal (s : ParserS) (name : Span) : ParserS :=
  modifyFrame s fun fr => { fr with locals := ⟨name, USIZE_MAX⟩ :: fr.locals }

/-- `Parser::declare_variable`: at local scope, scan
`locals.iter().rev().take_while(depth != MAX && depth < scope_depth)` for
a name match (reporting the duplicate error), then push the local. -/
def declareVariable (s : ParserS) : ParserS :=
  if (currentFrame s).scopeDepth = 0 then s
  else
    let name := s.previous.literal
    let fr := currentFrame s
    let hasDuplicate :=
      (fr.locals.takeWhile fun l =>
          decide (l.depth ≠ USIZE_MAX) && decide (l.depth < fr.scopeDepth)).any
        fun l => identifierEqual s name l.name
    let s := if hasDuplicate then
        errorAtCurrent s "Already a variable with this name in this scope."
      else s
    addLocal s name

/-- `Parser::identifier_constant`: intern the identifier's text into the
current chunk's constant pool. -/
def identifierConstant (s : ParserS) (name : Span) : ParserS × Nat :=
  let text := strSlice s.source name.start name.stop
  match s.frames with
  | [] => (s, 0)
  | fr :: rest =>
    let (ch, pos) := fr.function.chunk.addConstant (.vStr text)
    ({ s with frames := { fr with function := fr.function.withChunk ch } :: rest }, pos)

/-- `Parser::parse_variable`: consume the identifier, declare it; at local
scope return 0, at global scope intern the name. -/
def parseVariable (s : ParserS) (msg : String) : ParserS × Nat :=
  let s := consume s .tIdentifier msg
  let s := declareVariable s
  if (currentFrame s).scopeDepth > 0 then (s, 0)
  else identifierConstant s s.previous.literal

/-- `Parser::mark_initialized`: set the newest local's depth to the
current scope depth (no-op at global scope). -/
def markInitialized (s : ParserS) : ParserS :=
  if (currentFrame s).scopeDepth = 0 then s
  else
    modifyFrame s fun fr =>
      match fr.locals with
      | [] => fr
      | l :: rest => { fr with locals := { l with depth := fr.scopeDepth } :: rest }

/-- `Parser::define_variable`. -/
def defineVariable (s : ParserS) (var : Nat) : ParserS :=
  if (currentFrame s).scopeDepth > 0 then markInitialized s
  else emitOpNat (emitOp s .opDefineGlobal) var

/-- The scan loop of `Parser::synchronize`. -/
def synchronizeGo : Nat → ParserS → ParserS
  | 0, s => s
  | n + 1, s =>
    if s.current.tokenType = .tEof then s
    else if s.previous.tokenType = .tSemi then s
    else
      match s.current.tokenType with
      | .tClass | .tFun | .tVar | .tFor | .tIf | .tWhile | .tPrint | .tReturn => s
      | _ => synchronizeGo n (pAdvance s)

/-- `Parser::synchronize` (dead in practice: nothing ever sets `panic`). -/
def synchronize (s : ParserS) : ParserS :=
  synchronizeGo (s.tokens.length + 1) { s with panic := false }

/-- Fuel exhaustion marker: poisons the parse so that no theorem about a
completed parse can silently rest on an unfinished recursion. -/
def fuelFail (s : ParserS) : ParserS :=
  { s with hadError := true, errors := s.errors ++ ["INTERNAL: out of fuel"] }

/-- `Parser::number`: parse the literal span's text, emit the constant. -/
def pNumber (s : ParserS) : ParserS :=
  let numStr := spanToStr s s.previous.literal
  emitConstant s (.vNum (decToRat numStr))

/-- `Parser::literal`. -/
def pLiteral (s : ParserS) : ParserS :=
  match s.previous.tokenType with
  | .tFalse => emitOp s .opFalse
  | .tTrue => emitOp s .opTrue
  | .tNil => emitOp s .opNil
  | _ => s

/-- `Parser::string`: the constant is the span's interior (delimiters
stripped). -/
def pString (s : ParserS) : ParserS :=
  let lit := s.previous.literal
  emitConstant s (.vStr (strSlice s.source (lit.start + 1) (lit.stop - 1)))

/-! The recursive heart of the compiler.  Every Rust loop or recursive
call descends on an explicit fuel argument. -/

mutual

/-- `Parser::parse_precedence`. -/
def parsePrecedence : Nat → ParserS → Precedence → ParserS
  | 0, s, _ => fuelFail s
  | fuel + 1, s, prec =>
    let s := pAdvance s
    let prefixRule := prefixRuleOf s.previous.tokenType
    if prefixRule = .pfNone then errorAtCurrent s "Expected expression."
    else
      let canAssign : Bool := prec.toNat ≤ Precedence.assignment.toNat
      let s := parseFnDispatch fuel s prefixRule canAssign
      let s := infixLoop fuel s prec canAssign
      if canAssign then
        let (m, s) := matchToken s .tEqual
        if m then errorAtCurrent s "Invalid assignment target." else s
      else s

/-- The `while precedence <= get_precedence_rule(current)` loop of
`parse_precedence`. -/
def infixLoop : Nat → ParserS → Precedence → Bool → ParserS
  | 0, s, _, _ => fuelFail s
  | fuel + 1, s, prec, canAssign =>
    if prec.toNat ≤ (precedenceRuleOf s.current.tokenType).toNat then
      let s := pAdvance s
      let s := parseFnDispatch fuel s (infixRuleOf s.previous.tokenType) canAssign
      infixLoop fuel s prec canAssign
    else s

/-- `Parser::parse_fn`. -/
def parseFnDispatch : Nat → ParserS → ParseFn → Bool → ParserS
  | 0, s, _, _ => fuelFail s
  | fuel + 1, s, pf, canAssign =>
    match pf with
    | .pfNumber => pNumber s
    | .pfGroup => pGroup fuel s
    | .pfUnary => pUnary fuel s
    | .pfBinary => pBinary fuel s
    | .pfLiteral => pLiteral s
    | .pfString => pString s
    | .pfVariable => namedVariable fuel s s.previous.literal canAssign
    | .pfAnd => pAnd fuel s
    | .pfOr => pOr fuel s
    | .pfCall => pCall fuel s
    | .pfNone => s

/-- `Parser::expression`. -/
def expression : Nat → ParserS → ParserS
  | 0, s => fuelFail s
  | fuel + 1, s => parsePrecedence fuel s .assignment

/-- `Parser::group`. -/
def pGroup : Nat → ParserS → ParserS
  | 0, s => fuelFail s
  | fuel + 1, s =>
    let s := expression fuel s
    consume s .tRightParen "Expected ')' after expression."

/-- `Parser::unary`. -/
def pUnary : Nat → ParserS → ParserS
  | 0, s => fuelFail s
  | fuel + 1, s =>
    let operatorType := s.previous.tokenType
    let s := parsePrecedence fuel s .unary
    match operatorType with
    | .tMinus => emitOp s .opNegate
    | .tBang => emitOp s .opNot
    | _ => s

/-- `Parser::binary`. -/
def pBinary : Nat → ParserS → ParserS
  | 0, s => fuelFail s
  | fuel + 1, s =>
    let operatorType := s.previous.tokenType
    let prec := precedenceRuleOf operatorType
    let s := parsePrecedence fuel s (Precedence.fromNat (prec.toNat + 1))
    match operatorType with
    | .tPlus => emitOp s .opAdd
    | .tMinus => emitOp s .opSubtract
    | .tStar => emitOp s .opMultiply
    | .tSlash => emitOp s .opDivide
    | .tEqualEqual => emitOp s .opEqual
    | .tBangEqual => emitOps s .opEqual .opNot
    | .tGreater => emitOp s .opGreater
    | .tGreaterEqual => emitOps s .opLess .opNot
    | .tLess => emitOp s .opLess
    | .tLessEqual => emitOps s .opGreater .opNot
    | _ => s

/-- `Parser::named_variable`: resolve locally (slot `≠ usize::MAX`) or
fall back to a global constant, then get or set. -/
def namedVariable : Nat → ParserS → Span → Bool → ParserS
  | 0, s, _, _ => fuelFail s
  | fuel + 1, s, name, canAssign =>
    let (s, arg) := resolveLocal s name
    if arg ≠ USIZE_MAX then
      namedVariableEmit fuel s .opGetLocal .opSetLocal arg canAssign
    else
      let (s, arg) := identifierConstant s name
      namedVariableEmit fuel s .opGetGlobal .opSetGlobal arg canAssign

/-- The tail of `named_variable`: `if can_assign && match(=)` (the
match only runs when `can_assign`, mirroring `&&`'s short-circuit). -/
def namedVariableEmit : Nat → ParserS → OpCode → OpCode → Nat → Bool → ParserS
  | 0, s, _, _, _, _ => fuelFail s
  | fuel + 1, s, getOp, setOp, arg, canAssign =>
    if canAssign then
      let (m, s) := matchToken s .tEqual
      if m then
        let s := expression fuel s
        emitOpsUsize s setOp arg
      else emitOpsUsize s getOp arg
    else emitOpsUsize s getOp arg

/-- `Parser::and`. -/
def pAnd : Nat → ParserS → ParserS
  | 0, s => fuelFail s
  | fuel + 1, s =>
    let (endJump, s) := emitJump s .opJumpIfFalse
    let s := emitOp s .opPop
    let s := parsePrecedence fuel s .andP
    patchJump s endJump

/-- `Parser::or`. -/
def pOr : Nat → ParserS → ParserS
  | 0, s => fuelFail s
  | fuel + 1, s =>
    let (elseJump, s) := emitJump s .opJumpIfFalse
    let (endJump, s) := emitJump s .opJump
    let s := patchJump s elseJump
    let s := emitOp s .opPop
    let s := parsePrecedence fuel s .orP
    patchJump s endJump

/-- `Parser::call`. -/
def pCall : Nat → ParserS → ParserS
  | 0, s => fuelFail s
  | fuel + 1, s =>
    let (s, argCount) := argumentList fuel s
    emitOpsUsize s .opCall argCount

/-- `Parser::argument_list`. -/
def argumentList : Nat → ParserS → ParserS × Nat
  | 0, s => (fuelFail s, 0)
  | fuel + 1, s =>
    let (s, n) := if checkType s .tRightParen then (s, 0) else argLoop fuel s 0
    (consume s .tRightParen "Expected ')' after arguments.", n)

/-- The `loop` inside `argument_list`. -/
def argLoop : Nat → ParserS → Nat → ParserS × Nat
  | 0, s, n => (fuelFail s, n)
  | fuel + 1, s, n =>
    let n := n + 1
    let s := expression fuel s
    let (m, s) := matchToken s .tComma
    if m then argLoop fuel s n else (s, n)

/-- `Parser::declaration`. -/
def declaration : Nat → ParserS → ParserS
  | 0, s => fuelFail s
  | fuel + 1, s =>
    let s :=
      match s.current.tokenType with
      | .tFun => funDeclaration fuel s
      | .tVar => varDeclaration fuel s
      | _ => statement fuel s
    if s.panic then synchronize s else s

/-- `Parser::fun_declaration`. -/
def funDeclaration : Nat → ParserS → ParserS
  | 0, s => fuelFail s
  | fuel + 1, s =>
    let s := pAdvance s
    let (s, global) := parseVariable s "Expected function name after fun."
    let s := markInitialized s
    let s := functionCompile fuel s .function
    defineVariable s global

/-- `Parser::function`: push a fresh frame (arity 0, EMPTY locals list,
inherited scope depth), compile params and body, emit a single `RETURN`,
pop the frame and emit its function as a constant in the enclosing
chunk. -/
def functionCompile : Nat → ParserS → FunctionType → ParserS
  | 0, s, _ => fuelFail s
  | fuel + 1, s, ftype =>
    let fname := spanToStr s s.previous.literal
    let newFrame : CompileFrame :=
      ⟨.mk 0 emptyChunk (some fname), ftype, [], [], (currentFrame s).scopeDepth⟩
    let s := { s with frames := newFrame :: s.frames }
    let s := beginScope s
    let s := consume s .tLeftParen "Expected '(' after function name."
    let s := if checkType s .tRightParen then s else paramLoop fuel s
    let s := consume s .tRightParen "Expected ')' after function parameters."
    let s := consume s .tLeftBrace "Expected '\x7b' before function body."
    let s := declLoopBraces fuel s
    let s := consume s .tRightBrace "Expected '\x7d' after function body."
    let s := emitOp s .opReturn
    match s.frames with
    | [] => s
    | fr :: rest => emitConstant { s with frames := rest } (.vFun fr.function)

/-- The parameter `loop` inside `Parser::function`. -/
def paramLoop : Nat → ParserS → ParserS
  | 0, s => fuelFail s
  | fuel + 1, s =>
    let s := modifyFrame s fun fr =>
      let f := fr.function.withArity (fr.function.arity + 1)
      { fr with function := f }
    let (s, c) := parseVariable s "Expected parameter name."
    let s := defineVariable s c
    let (m, s) := matchToken s .tComma
    if m then paramLoop fuel s else s

/-- `Parser::var_declaration`. -/
def varDeclaration : Nat → ParserS → ParserS
  | 0, s => fuelFail s
  | fuel + 1, s =>
    let s := pAdvance s
    let (s, var) := parseVariable s "Expect variable name."
    let (m, s) := matchToken s .tEqual
    let s := if m then expression fuel s else emitOp s .opNil
    let s := consume s .tSemi "Expected ';' after variable declaration"
    defineVariable s var

/-- `Parser::statement`. -/
def statement : Nat → ParserS → ParserS
  | 0, s => fuelFail s
  | fuel + 1, s =>
    match s.current.tokenType with
    | .tPrint => printStatement fuel s
    | .tIf => ifStatement fuel s
    | .tReturn => returnStatement fuel s
    | .tWhile => whileStatement fuel s
    | .tFor => forStatement fuel s
    | .tLeftBrace => block fuel s
    | _ => expressionStatement fuel s

/-- `Parser::print_statement`. -/
def printStatement : Nat → ParserS → ParserS
  | 0, s => fuelFail s
  | fuel + 1, s =>
    let s := pAdvance s
    let s := expression fuel s
    let s := consume s .tSemi "Expected ';' after value."
    emitOp s .opPrint

/-- `Parser::block`. -/
def block : Nat → ParserS → ParserS
  | 0, s => fuelFail s
  | fuel + 1, s =>
    let s := beginScope s
    let s := pAdvance s
    let s := declLoopBraces fuel s
    let s := consume s .tRightBrace "Expected '\x7d' after block."
    endScope s

/-- The `while !check(RightBrace) && !check(Eof)` declaration loop shared
by `block` and `Parser::function`. -/
def declLoopBraces : Nat → ParserS → ParserS
  | 0, s => fuelFail s
  | fuel + 1, s =>
    if !(checkType s .tRightBrace) && !(checkType s .tEof) then
      declLoopBraces fuel (declaration fuel s)
    else s

/-- `Parser::expression_statement`. -/
def expressionStatement : Nat → ParserS → ParserS
  | 0, s => fuelFail s
  | fuel + 1, s =>
    let s := expression fuel s
    let s := consume s .tSemi "Expected ';' after expression."
    emitOp s .opPop

/-- `Parser::if_statement`. -/
def ifStatement : Nat → ParserS → ParserS
  | 0, s => fuelFail s
  | fuel + 1, s =>
    let s := pAdvance s
    let s := consume s .tLeftParen "Expected '(' after 'if'."
    let s := expression fuel s
    let s := consume s .tRightParen "Expected ')' after condition."
    let (thenJump, s) := emitJump s .opJumpIfFalse
    let s := emitOp s .opPop
    let s := statement fuel s
    let (elseJump, s) := emitJump s .opJump
    let s := patchJump s thenJump
    let s := emitOp s .opPop
    let (m, s) := matchToken s .tElse
    let s := if m then statement fuel s else s
    patchJump s elseJump

/-- `Parser::return_statement`. -/
def returnStatement : Nat → ParserS → ParserS
  | 0, s => fuelFail s
  | fuel + 1, s =>
    let s := pAdvance s
    if (currentFrame s).functionType = .script then
      errorAtCurrent s "Can't return from top-level code."
    else
      let (m, s) := matchToken s .tSemi
      if m then emitOps s .opNil .opReturn
      else
        let s := expression fuel s
        let s := consume s .tSemi "Expected ';' after return value."
        emitOp s .opReturn

/-- `Parser::while_statement`. -/
def whileStatement : Nat → ParserS → ParserS
  | 0, s => fuelFail s
  | fuel + 1, s =>
    let s := pAdvance s
    let loopStart := (currentFrame s).function.chunk.len
    let s := consume s .tLeftParen "Expected '(' after 'while'."
    let s := expression fuel s
    let s := consume s .tRightParen "Expected ')' after condition."
    let (exitJump, s) := emitJump s .opJumpIfFalse
    let s := emitOp s .opPop
    let s := statement fuel s
    let s := emitLoop s loopStart
    let s := patchJump s exitJump
    emitOp s .opPop

/-- `Parser::for_statement`, exactly as written in the source: after an
empty initializer's `;` it runs one extra `advance()`; it then expects
`;` and `)` directly (no condition or step compilation, no exit jump) and
closes with an unconditional backward `LOOP`. -/
def forStatement : Nat → ParserS → ParserS
  | 0, s => fuelFail s
  | fuel + 1, s =>
    let s := pAdvance s
    let s := beginScope s
    let s := consume s .tLeftParen "Expected '(' after 'for'."
    let (m1, s) := matchToken s .tSemi
    let s :=
      if m1 then pAdvance s
      else
        let (m2, s) := matchToken s .tVar
        if m2 then varDeclaration fuel s
        else expressionStatement fuel s
    let loopStart := (currentFrame s).function.chunk.len
    let s := consume s .tSemi "Expected ';' after loop variable condition."
    let s := consume s .tRightParen "Expected ')' after condition."
    let s := statement fuel s
    let s := emitLoop s loopStart
    endScope s

/-- The `while !match(Eof)` loop of `Parser::parse`. -/
def parseLoop : Nat → ParserS → ParserS
  | 0, s => fuelFail s
  | fuel + 1, s =>
    let (m, s) := matchToken s .tEof
    if m then s else parseLoop fuel (declaration fuel s)

end

/-- `Parser::end_parse` (tracing elided): emit `NIL; RETURN` into the
current (script) chunk. -/
def endParse (s : ParserS) : ParserS := emitOps s .opNil .opReturn

/-- The root `CompileFrame` built by `Parser::new`. -/
def rootFrame : CompileFrame := ⟨.mk 0 emptyChunk none, .script, [], [], 0⟩

/-- `Parser::new`. -/
def initState (source : String) (tokens : List Token) : ParserS :=
  ⟨source, tokens, dummyToken, dummyToken, false, false, [], [rootFrame]⟩

/-- `Parser::parse`: advance, compile declarations to `Eof`, `end_parse`,
return the root frame's function (`frames.remove(0)` — the root is the
LAST of our innermost-first list). -/
def parseProgram (fuel : Nat) (source : String) (tokens : List Token) :
    FunctionV × ParserS :=
  let s := pAdvance (initState source tokens)
  let s := parseLoop fuel s
  let s := endParse s
  ((s.frames.getLastD dummyFrame).function, s)

/-- The instruction list of the `Function` value stored at index `i` of a
chunk's constant pool (how `Parser::function` hands the compiled body to
the enclosing chunk). -/
def funConstInstrs (c : Chunk) (i : Nat) : Option (List Nat) :=
  match c.consts.get? i with
  | some (.vFun f) => some f.chunk.instrs
  | _ => none

/-! ## VM fragments (src/vm.rs) -/

/-- `MAX_FRAMES` from src/vm.rs. -/
def MAX_FRAMES : Nat := 255

/-- Association-list embedding of the globals `HashMap` lookup. -/
def lookupGlobal : List (String × LoxValue) → String → Option LoxValue
  | [], _ => none
  | (k, v) :: rest, n => if k = n then some v else lookupGlobal rest n

/-- `VM::get_global` after the name constant was read: an absent name
errors with the source's literal message (`format!("Global Variable {name}
not found")`), a present name pushes the bound value (list head = top of
stack). -/
def getGlobal (globals : List (String × LoxValue)) (name : String)
    (stack : List LoxValue) : Except String (List LoxValue) :=
  match lookupGlobal globals name with
  | none => .error ("Global Variable " ++ name ++ " not found")
  | some v => .ok (v :: stack)

/-- `VM::call`: arity check, frame-overflow check (`frames.len() ==
MAX_FRAMES`), stack-underflow check, then the new `CallFrame`
(`cursor = 0`, `slot_base = stack.len() - arg_count - 1`); the value
stack is returned untouched. -/
def vmCall (arity argCount framesLen : Nat) (stack : List LoxValue) :
    Except String (Nat × Nat × List LoxValue) :=
  if arity ≠ argCount then
    .error ("Expected " ++ toString arity ++ " arguments but got "
      ++ toString argCount ++ ".")
  else if framesLen = MAX_FRAMES then .error "Stack overflow."
  else if stack.length < argCount + 1 then .error "Invalid access to stack."
  else .ok (0, stack.length - argCount - 1, stack)

/-- `VM::equal`: pop `b` then `a` (list head = top of stack), push
`Bool(a.eq(b))`. -/
def vmEqual : List LoxValue → Except String (List LoxValue)
  | b :: a :: rest => .ok (.vBool (a.eq b) :: rest)
  | _ => .error "Invalid access to stack"

/-! ## Concrete token streams

Each program below is listed with the token stream the lexer produces for
it (ASCII sources; spans are byte offsets into the source string; lines
and columns are irrelevant to the properties checked and set to 1 and 0). -/

def mkTok (tt : TokenType) (a b : Nat) : Token := ⟨tt, 1, 0, ⟨a, b⟩⟩

def c1Src : String := "fun f() \x7b var a = 1; var b = 2; print b; \x7d"

def c1Toks : List Token :=
  [mkTok .tFun 0 3, mkTok .tIdentifier 4 5, mkTok .tLeftParen 5 6, mkTok .tRightParen 6 7,
   mkTok .tLeftBrace 8 9, mkTok .tVar 10 13, mkTok .tIdentifier 14 15, mkTok .tEqual 16 17,
   mkTok .tNumber 18 19, mkTok .tSemi 19 20, mkTok .tVar 21 24, mkTok .tIdentifier 25 26,
   mkTok .tEqual 27 28, mkTok .tNumber 29 30, mkTok .tSemi 30 31, mkTok .tPrint 32 37,
   mkTok .tIdentifier 38 39, mkTok .tSemi 39 40, mkTok .tRightBrace 41 42, mkTok .tEof 42 42]

def c2Src : String := "fun f() \x7b\x7d"

def c2Toks : List Token :=
  [mkTok .tFun 0 3, mkTok .tIdentifier 4 5, mkTok .tLeftParen 5 6, mkTok .tRightParen 6 7,
   mkTok .tLeftBrace 8 9, mkTok .tRightBrace 9 10, mkTok .tEof 10 10]

def c3Src : String := "for (; false; ) print 1;"

def c3Toks : List Token :=
  [mkTok .tFor 0 3, mkTok .tLeftParen 4 5, mkTok .tSemi 5 6, mkTok .tFalse 7 12,
   mkTok .tSemi 12 13, mkTok .tRightParen 14 15, mkTok .tPrint 16 21, mkTok .tNumber 22 23,
   mkTok .tSemi 23 24, mkTok .tEof 24 24]

def c4Src : String := "{ var a = a; }"

def c4Toks : List Token :=
  [mkTok .tLeftBrace 0 1, mkTok .tVar 2 5, mkTok .tIdentifier 6 7, mkTok .tEqual 8 9,
   mkTok .tIdentifier 10 11, mkTok .tSemi 11 12, mkTok .tRightBrace 13 14, mkTok .tEof 14 14]

def c5DupSrc : String := "{ var a = 1; var a = 2; }"

def c5DupToks : List Token :=
  [mkTok .tLeftBrace 0 1, mkTok .tVar 2 5, mkTok .tIdentifier 6 7, mkTok .tEqual 8 9,
   mkTok .tNumber 10 11, mkTok .tSemi 11 12, mkTok .tVar 13 16, mkTok .tIdentifier 17 18,
   mkTok .tEqual 19 20, mkTok .tNumber 21 22, mkTok .tSemi 22 23, mkTok .tRightBrace 24 25,
   mkTok .tEof 25 25]

def c5ShadowSrc : String := "{ var a = 1; { var a = 2; } }"

def c5ShadowToks : List Token :=
  [mkTok .tLeftBrace 0 1, mkTok .tVar 2 5, mkTok .tIdentifier 6 7, mkTok .tEqual 8 9,
   mkTok .tNumber 10 11, mkTok .tSemi 11 12, mkTok .tLeftBrace 13 14, mkTok .tVar 15 18,
   mkTok .tIdentifier 19 20, mkTok .tEqual 21 22, mkTok .tNumber 23 24, mkTok .tSemi 24 25,
   mkTok .tRightBrace 26 27, mkTok .tRightBrace 28 29, mkTok .tEof 29 29]

/-! ## Theorems settling the claims -/

/-- C1: the claim says the emitted slot is the matching local's index in
the frame's locals list counted from the OLDEST entry, with index 0
reserved for the callee.  Inside `fun f() { var a = 1; var b = 2;
print b; }` the claim's locals list is `[f, a, b]`, so reading `b` must
emit `GET_LOCAL 2`.  `Parser::function` starts its frame with an EMPTY
locals list (no reserved callee slot, see `functionCompile`) and
`resolve_local` hands back the enumerate index over
`locals.iter().rev()`, i.e. counted from the MOST RECENT local, so the
compiled body of `f` carries `GET_LOCAL 0` — the slot that at runtime
(`slot_base` points at the callee) holds the function value itself, not
`b`'s 2. -/
theorem c1_local_slot_counted_from_most_recent :
    (parseProgram 64 c1Src c1Toks).2.hadError = false ∧
    funConstInstrs (parseProgram 64 c1Src c1Toks).1.chunk 1 =
      some [OpCode.opConstant.toNat, 0, OpCode.opConstant.toNat, 1,
            OpCode.opGetLocal.toNat, 0, OpCode.opPrint.toNat,
            OpCode.opReturn.toNat] := by decide

/-- C2: the claim says every compiled function chunk ends with
`NIL; RETURN`.  `Parser::function` emits only `RETURN` after the body
(the `NIL; RETURN` pair of `end_parse` goes into the SCRIPT chunk alone),
so the chunk of `fun f() {}` is the single instruction `RETURN` and does
not end with a `NIL; RETURN` pair; falling off the end pops whatever is
on top of the stack (the callee itself here) instead of `nil`. -/
theorem c2_function_tail_lacks_nil :
    (parseProgram 64 c2Src c2Toks).2.hadError = false ∧
    funConstInstrs (parseProgram 64 c2Src c2Toks).1.chunk 1 =
      some [OpCode.opReturn.toNat] ∧
    List.isSuffixOf [OpCode.opNil.toNat, OpCode.opReturn.toNat]
      ((funConstInstrs (parseProgram 64 c2Src c2Toks).1.chunk 1).getD []) = false := by
  decide

/-- C3: the claim says `for (init; cond; step) body` compiles with the
condition followed by an exit jump, so a false condition runs the body
zero times.  `Parser::for_statement` compiles no condition and no step at
all (after the empty initializer's `;` it even `advance()`s past the
`false` token without emitting anything) and ends with an unconditional
backward `LOOP`: the chunk for `for (; false; ) print 1;` is
`CONSTANT 0; PRINT; LOOP 4` and contains no `JUMP_IF_FALSE`, an
unconditional infinite loop that runs the body forever. -/
theorem c3_for_drops_condition_and_step :
    (parseProgram 64 c3Src c3Toks).2.hadError = false ∧
    (parseProgram 64 c3Src c3Toks).1.chunk.instrs =
      [OpCode.opConstant.toNat, 0, OpCode.opPrint.toNat, OpCode.opLoop.toNat, 4,
       OpCode.opNil.toNat, OpCode.opReturn.toNat] ∧
    List.contains (parseProgram 64 c3Src c3Toks).1.chunk.instrs
      OpCode.opJumpIfFalse.toNat = false := by decide

/-- C4: the claim says resolving a name against a local whose depth is
still the SENTINEL reports "Can't read local variable in its own
initializer." and that `{ var a = a; }` fails to compile.  The code tests
`local.depth == 0`, but the sentinel is `usize::MAX` (and no local ever
has depth 0, locals exist only at scope depth ≥ 1), so the error is
unreachable: the program compiles with no error at all, resolving `a` to
slot 0 inside its own initializer. -/
theorem c4_own_initializer_error_never_fires :
    (parseProgram 64 c4Src c4Toks).2.hadError = false ∧
    (parseProgram 64 c4Src c4Toks).2.errors = [] ∧
    (parseProgram 64 c4Src c4Toks).1.chunk.instrs =
      [OpCode.opGetLocal.toNat, 0, OpCode.opPop.toNat,
       OpCode.opNil.toNat, OpCode.opReturn.toNat] := by decide

/-- C5: the claim says redeclaring a name in the same block errors with
"Already a variable with this name in this scope." while shadowing an
outer-scope name is fine.  The code's `take_while(depth != MAX && depth <
scope_depth)` KEEPS exactly the locals of enclosing scopes and stops at
the first local of the current scope — the inverse of the intended
"scan back until the first outer local": `{ var a = 1; var a = 2; }`
compiles with no error, while the legal shadowing
`{ var a = 1; { var a = 2; } }` reports the duplicate error. -/
theorem c5_duplicate_check_inverted :
    (parseProgram 64 c5DupSrc c5DupToks).2.hadError = false ∧
    (parseProgram 64 c5DupSrc c5DupToks).2.errors = [] ∧
    (parseProgram 64 c5ShadowSrc c5ShadowToks).2.errors =
      ["[1:0] Error: Already a variable with this name in this scope."] := by decide

/-- C6: the claim says each of the sixteen keywords lexes to its keyword
token.  For `and`, `Lexer::identifier` calls
`check_keyword(start+1, start+3, "and")`, comparing the two-byte suffix
`"nd"` against the three-byte snippet `"and"` (every other branch passes
the suffix; this one passes the whole keyword), which can never be equal,
so the source `and` falls through the alphanumeric scan and is emitted as
an `Identifier` token. -/
theorem c6_and_keyword_never_recognized :
    checkKeyword "and" 1 3 "and" = false ∧
    identifierScan "and" 0 1 = (TokenType.tIdentifier, 3) ∧
    (TokenType.tIdentifier == TokenType.tAnd) = false := by decide

/-- C7: the claim says a numeric literal's token span covers exactly the
literal and `1.5` compiles to the constant 1.5.  `Lexer::number`'s `'.'`
branch consumes the dot from the character iterator without advancing
`current`, so for the source `1.5` the emitted span is `(0, 2)`, whose
text is `"1."`; `Parser::number` therefore parses `"1."` and the stored
constant is 1, not 3/2. -/
theorem c7_number_span_misses_the_dot :
    numberScan "1.5" 0 = some ⟨0, 2⟩ ∧
    strSlice "1.5" 0 2 = "1." ∧
    decToRat (strSlice "1.5" 0 2) = 1 ∧
    decToRat "1.5" = 3 / 2 := by
  refine ⟨by decide, by decide, ?_, ?_⟩
  · have h : strSlice "1.5" 0 2 = "1." := by decide
    rw [h]
    simp only [decToRat, splitDot, digitsVal]
    rw [if_neg (by decide)]
    norm_num [show ('1').toNat - 48 = 1 from by decide]
  · simp only [decToRat, splitDot, digitsVal]
    rw [if_neg (by decide)]
    norm_num [show ('1').toNat - 48 = 1 from by decide,
      show ('5').toNat - 48 = 5 from by decide]

/-- C8 (counterexample): the claim says the `GET_GLOBAL` miss diagnostic
contains the literal text "Undefined variable".  `VM::get_global` formats
`"Global Variable {name} not found"`, which does not contain that text
(only `SET_GLOBAL` still says "Undefined variable"). -/
theorem c8_get_global_message_counterexample :
    getGlobal [] "foo" [] = Except.error "Global Variable foo not found" ∧
    strHasSub "Global Variable foo not found" "Undefined variable" = false :=
  ⟨rfl, by decide⟩

/-- C8 (amended): executing `GET_GLOBAL` with a name absent from the
globals table raises a runtime error (the driver exits 70) whose stderr
diagnostic carries a line/column location and the message
`Global Variable <name> not found`; if the name is present, the bound
value is pushed and no error occurs. -/
theorem c8_get_global_amended (globals : List (String × LoxValue)) (name : String)
    (stack : List LoxValue) :
    (lookupGlobal globals name = none →
      getGlobal globals name stack =
        Except.error ("Global Variable " ++ name ++ " not found")) ∧
    ∀ v, lookupGlobal globals name = some v →
      getGlobal globals name stack = Except.ok (v :: stack) := by
  constructor
  · intro h
    unfold getGlobal
    rw [h]
  · intro v h
    unfold getGlobal
    rw [h]

/-- Witness for `c8_get_global_amended` at concrete inputs: a miss on an
empty table and a hit on a one-entry table. -/
theorem c8_get_global_amended_witness :
    getGlobal [] "bar" [] = Except.error "Global Variable bar not found" ∧
    getGlobal [("x", LoxValue.vNil)] "x" [LoxValue.vBool true] =
      Except.ok [LoxValue.vNil, LoxValue.vBool true] :=
  ⟨(c8_get_global_amended [] "bar" []).1 rfl,
   (c8_get_global_amended [("x", LoxValue.vNil)] "x" [LoxValue.vBool true]).2
     LoxValue.vNil rfl⟩

/-- C9: `CALL argc` on a `Function` callee errors with the literal
"Expected N arguments but got M." exactly when the arity differs from
`argc`; with matching arity it errors "Stack overflow." exactly when the
frame depth has reached `MAX_FRAMES = 255`; otherwise (given the callee
and its arguments on the stack) it pushes a `CallFrame` with `ip = 0` and
`slot_base = stack length − argc − 1`, leaving the value stack
unchanged. -/
theorem c9_call_frame_discipline (arity argc framesLen : Nat) (stack : List LoxValue) :
    (arity ≠ argc →
      vmCall arity argc framesLen stack =
        Except.error ("Expected " ++ toString arity ++ " arguments but got "
          ++ toString argc ++ ".")) ∧
    (arity = argc → framesLen = MAX_FRAMES →
      vmCall arity argc framesLen stack = Except.error "Stack overflow.") ∧
    (arity = argc → framesLen ≠ MAX_FRAMES → argc + 1 ≤ stack.length →
      vmCall arity argc framesLen stack =
        Except.ok (0, stack.length - argc - 1, stack)) := by
  refine ⟨fun h => ?_, fun h1 h2 => ?_, fun h1 h2 h3 => ?_⟩
  · unfold vmCall
    rw [if_pos h]
  · unfold vmCall
    rw [if_neg (by omega), if_pos h2]
  · unfold vmCall
    rw [if_neg (by omega), if_neg h2, if_neg (by omega)]

/-- Witness for `c9_call_frame_discipline`: all three branches at
concrete inputs (arity mismatch, frame-stack full, successful call of a
0-ary callee sitting alone on the stack). -/
theorem c9_call_frame_discipline_witness :
    vmCall 2 1 0 [] = Except.error "Expected 2 arguments but got 1." ∧
    vmCall 1 1 255 [] = Except.error "Stack overflow." ∧
    vmCall 0 0 0 [LoxValue.vNil] = Except.ok (0, 0, [LoxValue.vNil]) :=
  ⟨(c9_call_frame_discipline 2 1 0 []).1 (by decide),
   (c9_call_frame_discipline 1 1 255 []).2.1 rfl rfl,
   (c9_call_frame_discipline 0 0 0 [LoxValue.vNil]).2.2 rfl (by decide) (by decide)⟩

/-- C10: `Value::eq` falls through to the catch-all `false` whenever both
operands are `Function` values or both are `NativeFn` values — even for a
value compared with itself — and the `EQUAL` opcode on two such operands
pushes `Bool(false)`. -/
theorem c10_function_equality_never_true :
    (∀ f g : FunctionV, LoxValue.eq (.vFun f) (.vFun g) = false) ∧
    (∀ a b : String, LoxValue.eq (.vNative a) (.vNative b) = false) ∧
    (∀ f : FunctionV, LoxValue.eq (.vFun f) (.vFun f) = false) ∧
    (∀ (f g : FunctionV) (rest : List LoxValue),
      vmEqual (.vFun g :: .vFun f :: rest) = Except.ok (.vBool false :: rest)) ∧
    (∀ (a b : String) (rest : List LoxValue),
      vmEqual (.vNative b :: .vNative a :: rest) = Except.ok (.vBool false :: rest)) :=
  ⟨fun _ _ => rfl, fun _ _ => rfl, fun _ => rfl,
   fun _ _ _ => rfl, fun _ _ _ => rfl⟩

end Lox
